import Mathlib

/-!
Shallow embedding of the sales-forecasting pipeline.

Sources embedded here:
  * `src/unnamed/part_000` and `src/src/SalesForecasting.js`: the component
    functions `preprocessData`, `trainAndPredict` (prediction loop),
    `filterPredictions` and `visualizeResults` (base and search variants).
  * `src/src/add`: the single-select variant (`preprocessData` with the
    `actualSales` aggregate and its `visualizeResults`).
  * `src/unnamed/part_001`: the CSV ingestor `processFile` row filter.

Modelling conventions:
  * JavaScript numbers that the code obtains through `parseFloat` are
    modelled as `ℚ`; an unparsable value (`NaN`) is `none`.
  * The host-environment parsers are passed in as functions: `pm` models
    `s => { const d = new Date(s); return !isNaN(d) ? d.getMonth() + 1 : null }`
    (a month 1..12, or `none` for an invalid date) and `pf` models
    `s => parseFloat(s)` (`none` for `NaN`).
  * The trained TensorFlow model is opaque to every claim considered here;
    it is modelled as an arbitrary function `predict : Nat → Nat → ℚ`
    taking the month and the product index.
  * `console.error` output is collected in an `errors` field / component.
-/

set_option autoImplicit false

namespace SalesForecast

/-- A raw sales record as handed to the forecasting component by the
uploader callback.  Field values are kept as uninterpreted strings and are
interpreted only through the parser functions `pm` / `pf`. -/
structure SalesRecord where
  sales_date : String
  product_description : String
  quantity_sold : String
deriving DecidableEq

/-- The record returned by `preprocessData` (part_000 lines 32-66):
`{ inputs, outputs, productMapping }` together with the `console.error`
messages emitted on the way. -/
structure PreprocessResult where
  inputs : List (Nat × Nat)
  outputs : List ℚ
  productMapping : List (String × Nat)
  errors : List String
deriving DecidableEq

/-- Tail of `[...new Set(l)]`: walk the list left to right, appending each
element not seen before to the accumulator. -/
def jsSetAux : List String → List String → List String
  | acc, [] => acc
  | acc, x :: xs => jsSetAux (if x ∈ acc then acc else acc ++ [x]) xs

/-- `[...new Set(l)]` on a list of strings: keeps the first occurrence of
every element, in first-occurrence order. -/
def jsSetDedup (l : List String) : List String :=
  jsSetAux [] l

/-- `products.map((p, i) => [p, i])` starting from index `n`: pairs every
element with its position. -/
def withIndices : List String → Nat → List (String × Nat)
  | [], _ => []
  | p :: ps, i => (p, i) :: withIndices ps (i + 1)

/-- `productMapping[p]`: property lookup on the object built by
`Object.fromEntries`, `none` when the key is absent (JS `undefined`). -/
def mappingLookup (m : List (String × Nat)) (p : String) : Option Nat :=
  (m.find? (fun pr => pr.1 = p)).map (fun pr => pr.2)

/-- `parseFloat(x) || 0`: `NaN` (here `none`) and `0` are falsy, every other
number is kept. -/
def jsNumOr0 (v : Option ℚ) : ℚ :=
  match v with
  | none => 0
  | some q => if q = 0 then 0 else q

/-- `inputs[i] !== null` where `inputs` is the already-filtered array of
input pairs (part_000 line 59).  An in-range element is a two-element
array, never `null` (the nulls were removed by the preceding `.filter`),
and an out-of-range access yields `undefined`, and `undefined !== null`
is `true` in JavaScript (strict inequality does not coerce).  So the test
is `true` in both cases; the case split records where each `true` comes
from. -/
def jsIdxNeNull (l : List (Nat × Nat)) (i : Nat) : Bool :=
  match l.get? i with
  | some _ => true
  | none => true

/-- `Array.prototype.filter` with the element index passed to the callback,
threading the current index `n`. -/
def filterWithIdx {α : Type} (p : Nat → α → Bool) : Nat → List α → List α
  | _, [] => []
  | n, x :: xs =>
    if p n x then x :: filterWithIdx p (n + 1) xs else filterWithIdx p (n + 1) xs

/-- `preprocessData` (part_000 lines 32-66, identical in
`SalesForecasting.js` and, up to the extra `actualSales` aggregate, in
`src/src/add`).  `data : Option _` models a possibly-`undefined` prop;
the `.map(...).filter(x => x !== null)` building `inputs` is written as a
single `filterMap` over the per-row option. -/
def preprocessData (pm : String → Option Nat) (pf : String → Option ℚ)
    (data : Option (List SalesRecord)) : PreprocessResult :=
  match data with
  | none => ⟨[], [], [], ["Data is empty or undefined"]⟩
  | some rows =>
    if rows.length = 0 then ⟨[], [], [], ["Data is empty or undefined"]⟩
    else
      let products := jsSetDedup (rows.map (fun r => r.product_description))
      let productMapping := withIndices products 0
      let quantities := rows.map (fun r => jsNumOr0 (pf r.quantity_sold))
      let inputs := (rows.map (fun row =>
        match pm row.sales_date, mappingLookup productMapping row.product_description with
        | some m, some idx => some (m, idx)
        | _, _ => none)).filterMap id
      let outputs := filterWithIdx (fun i _ => jsIdxNeNull inputs i) 0 quantities
      ⟨inputs, outputs, productMapping, []⟩

/-- One prediction entry pushed by the `trainAndPredict` loop
(part_000 lines 105-109). -/
structure PredictionEntry where
  product : String
  sales_date : Nat
  predicted : ℚ
deriving DecidableEq

/-- `Object.keys(productMapping)`: the keys in insertion order (the
product names here are plain strings, not array-index-like keys). -/
def objKeys (m : List (String × Nat)) : List String :=
  m.map (fun pr => pr.1)

/-- The prediction loop of `trainAndPredict` (part_000 lines 96-111):
for month `i = 1..6` and every key of the mapping, evaluate the model on
`[i, productMapping[product]]` and push an entry.  The lookup never
misses because the iterated products are exactly the keys; the `getD 0`
default is dead code kept only to give the JS property access a total
meaning. -/
def generatePredictions (predict : Nat → Nat → ℚ)
    (m : List (String × Nat)) : List PredictionEntry :=
  ((List.range 6).map (fun k =>
    (objKeys m).map (fun product =>
      ⟨product, k + 1, predict (k + 1) ((mappingLookup m product).getD 0)⟩))).flatten

/-- `trainAndPredict` (part_000 lines 78-115) up to the point where the
predictions are handed to the chart: preprocess, abort with a
`console.error` when inputs or outputs are empty, otherwise run the
prediction loop.  The actual gradient-descent training is opaque and is
summarised by the `predict` function. -/
def trainAndPredict (predict : Nat → Nat → ℚ) (pm : String → Option Nat)
    (pf : String → Option ℚ) (data : Option (List SalesRecord)) :
    Option (List PredictionEntry) × List String :=
  let r := preprocessData pm pf data
  if r.inputs.length = 0 ∨ r.outputs.length = 0 then
    (none, r.errors ++ ["Invalid input or output data"])
  else
    (some (generatePredictions predict r.productMapping), r.errors)

/-- `s.toLowerCase()` on the character sequence of a string (ASCII case
folding; the product names in play are ASCII text). -/
def jsToLower (s : String) : List Char :=
  s.toList.map Char.toLower

/-- `a.includes(b)` on character sequences: `b` occurs in `a` as a
contiguous substring. -/
def jsIncludes (a b : List Char) : Bool :=
  decide (b <:+: a)

/-- `filterPredictions` (SalesForecasting.js lines 124-130): the empty
search term is falsy, so `!searchTerm` returns the whole list; otherwise
keep the entries whose lower-cased product name contains the lower-cased
term. -/
def filterPredictions (searchTerm : String)
    (predictions : List PredictionEntry) : List PredictionEntry :=
  if searchTerm = "" then predictions
  else predictions.filter
    (fun p => jsIncludes (jsToLower p.product) (jsToLower searchTerm))

/-- A value plotted on the chart: either a number or a raw record field
(the search variant copies `salesData[0].quantity_sold` unparsed). -/
inductive ChartVal where
  | num (q : ℚ)
  | str (s : String)
deriving DecidableEq

/-- One dataset pushed to Chart.js.  The random `borderColor` and the pure
style fields (`fill`, `tension`, dash pattern) carry no data and are not
modelled. -/
structure Dataset where
  label : String
  data : List ChartVal
deriving DecidableEq

/-- The `{ labels, datasets }` object passed to `setChartData`. -/
structure ChartData where
  labels : List String
  datasets : List Dataset
deriving DecidableEq

/-- `Array.from({ length: 6 }, (_, i) => "Month " + (i + 1))`. -/
def monthLabels : List String :=
  (List.range 6).map (fun i => "Month " ++ toString (i + 1))

/-- `visualizeResults` of the base variant (part_000 lines 118-134):
one dataset per distinct predicted product. -/
def visualizeResults_base (predictions : List PredictionEntry) : ChartData :=
  let products := jsSetDedup (predictions.map (fun p => p.product))
  ⟨monthLabels,
   products.map (fun product =>
     ⟨product,
      (predictions.filter (fun p => p.product = product)).map
        (fun p => ChartVal.num p.predicted)⟩)⟩

/-- `visualizeResults` of the search variant (SalesForecasting.js lines
133-177): search-filtered predicted datasets plus, per surviving product,
an actual-sales dataset that takes the first matching raw record per
month (defaulting to the number 0). -/
def visualizeResults_search (searchTerm : String) (data : List SalesRecord)
    (pm : String → Option Nat) (predictions : List PredictionEntry) :
    ChartData :=
  let filtered := filterPredictions searchTerm predictions
  let products := jsSetDedup (filtered.map (fun p => p.product))
  let actualSales := products.map (fun product =>
    (List.range 6).map (fun month =>
      let salesData := data.filter (fun row =>
        row.product_description = product ∧ pm row.sales_date = some (month + 1))
      match salesData with
      | [] => ChartVal.num 0
      | r :: _ => ChartVal.str r.quantity_sold))
  let predDatasets := products.map (fun product =>
    ⟨product ++ " (Predicted)",
     (filtered.filter (fun p => p.product = product)).map
       (fun p => ChartVal.num p.predicted)⟩)
  let actualDatasets := (products.zip actualSales).map (fun pa =>
    ⟨pa.1 ++ " (Actual)", pa.2⟩)
  ⟨monthLabels, predDatasets ++ actualDatasets⟩

/-- `actualSales[p][m] += parseFloat(row.quantity_sold) || 0` on the
association list built by `reduce` (src/src/add lines 63-73).  `List.set`
is a no-op out of range, matching the fact that for an invalid date
`getMonth()` is `NaN` and the write lands on a `"NaN"` property, leaving
slots 0..11 unchanged. -/
def bumpActual (acc : List (String × List ℚ)) (p : String) (monthIdx : Nat)
    (q : ℚ) : List (String × List ℚ) :=
  acc.map (fun pr =>
    if pr.1 = p then (pr.1, pr.2.set monthIdx ((pr.2.get? monthIdx).getD 0 + q))
    else pr)

/-- The `actualSales` aggregate of the single-select variant's
`preprocessData` (src/src/add lines 62-73): one 12-slot array per
distinct product, summing parsed quantities into calendar-month slots
0..11; rows with an invalid date leave the 12 slots unchanged. -/
def actualSalesByProduct (pm : String → Option Nat) (pf : String → Option ℚ)
    (rows : List SalesRecord) : List (String × List ℚ) :=
  let products := jsSetDedup (rows.map (fun r => r.product_description))
  let init := products.map (fun p => (p, List.replicate 12 (0 : ℚ)))
  rows.foldl (fun acc row =>
    match pm row.sales_date with
    | some m => bumpActual acc row.product_description (m - 1)
        (jsNumOr0 (pf row.quantity_sold))
    | none => acc) init

/-- `actualSales[selectedProduct]` in the single-select variant. -/
def lookupActual (m : List (String × List ℚ)) (p : String) :
    Option (List ℚ) :=
  (m.find? (fun pr => pr.1 = p)).map (fun pr => pr.2)

/-- `visualizeResults` of the single-select variant (src/src/add lines
133-167): datasets for every predicted product drawn from the
selection-filtered list, plus, when a product is selected, its raw
12-slot actual-sales array (an absent key would pass JS `undefined`,
modelled as the empty data list). -/
def visualizeResults_select (selectedProduct : String)
    (predictions : List PredictionEntry)
    (actualSales : List (String × List ℚ)) : ChartData :=
  let products := jsSetDedup (predictions.map (fun p => p.product))
  let filteredPredictions :=
    if selectedProduct = "" then predictions
    else predictions.filter (fun p => p.product = selectedProduct)
  let datasets := products.map (fun product =>
    ⟨product ++ " Predicted",
     (filteredPredictions.filter (fun p => p.product = product)).map
       (fun p => ChartVal.num p.predicted)⟩)
  let actualDs :=
    if selectedProduct = "" then ([] : List Dataset)
    else [⟨selectedProduct ++ " Actual",
           ((lookupActual actualSales selectedProduct).getD []).map
             ChartVal.num⟩]
  ⟨monthLabels, datasets ++ actualDs⟩

/-- A JavaScript value as produced by Papa Parse with
`dynamicTyping: true`; `vNull` stands for `null`, `undefined` and a
missing field alike (all falsy). -/
inductive JsValue where
  | vNull
  | vStr (s : String)
  | vNum (q : ℚ)
  | vBool (b : Bool)
deriving DecidableEq

/-- JavaScript truthiness of a `JsValue`. -/
def truthy : JsValue → Bool
  | .vNull => false
  | .vStr s => decide (¬ s = "")
  | .vNum q => decide (¬ q = 0)
  | .vBool b => b

/-- One parsed CSV row as seen by the `complete` callback of the
ingestor. -/
structure CsvRow where
  sales_date : JsValue
  product_description : JsValue
  quantity_sold : JsValue
deriving DecidableEq

/-- The row filter of `processFile` (part_001 lines 22-34):
`results.data.filter(row => row.sales_date && row.product_description &&
row.quantity_sold)`. -/
def processFile (rows : List CsvRow) : List CsvRow :=
  rows.filter (fun r =>
    truthy r.sales_date && truthy r.product_description &&
      truthy r.quantity_sold)

/-- A concrete date parser for witnesses: recognises one January and one
February date. -/
def samplePm : String → Option Nat := fun s =>
  if s = "2024-01-15" then some 1
  else if s = "2024-02-10" then some 2
  else none

/-- A concrete quantity parser for witnesses: recognises "10" and "20". -/
def samplePf : String → Option ℚ := fun s =>
  if s = "10" then some 10
  else if s = "20" then some 20
  else none

/-- A concrete stand-in for a trained model. -/
def samplePredict : Nat → Nat → ℚ := fun m i => (m : ℚ) + i

/-- Two rows for exercising the alignment bug: a valid January row and a
row with an unparsable date. -/
def bugRows : List SalesRecord :=
  [⟨"2024-01-15", "A", "10"⟩, ⟨"not-a-date", "A", "20"⟩]

/-- One row whose quantity does not parse. -/
def badQtyRows : List SalesRecord :=
  [⟨"2024-01-15", "A", "oops"⟩]

/-- Two clean rows over two products. -/
def sampleRows : List SalesRecord :=
  [⟨"2024-01-15", "Product A", "10"⟩, ⟨"2024-02-10", "Product B", "20"⟩]

/-- The product mapping of `sampleRows`. -/
def sampleMapping : List (String × Nat) :=
  withIndices ["Product A", "Product B"] 0

/-- Driver output over `sampleMapping`. -/
def samplePredictions : List PredictionEntry :=
  generatePredictions samplePredict sampleMapping

/-- The 12-slot actual-sales aggregate of `sampleRows`. -/
def sampleActualSales : List (String × List ℚ) :=
  actualSalesByProduct samplePm samplePf sampleRows

/-- The "Widget A" prediction entry of the spec's search example. -/
def widgetEntry : PredictionEntry := ⟨"Widget A", 1, 5⟩

/-- The "Gadget B" prediction entry of the spec's search example. -/
def gadgetEntry : PredictionEntry := ⟨"Gadget B", 1, 3⟩

/-- A CSV row whose quantity parsed to the number 0. -/
def zeroQtyRow : CsvRow := ⟨.vStr "2024-01-15", .vStr "A", .vNum 0⟩

theorem jsSetAux_mem (l : List String) (acc : List String) (a : String) :
    a ∈ jsSetAux acc l ↔ a ∈ acc ∨ a ∈ l := by
  induction l generalizing acc with
  | nil => simp [jsSetAux]
  | cons x xs ih =>
    simp only [jsSetAux]
    by_cases hx : x ∈ acc
    · rw [if_pos hx, ih]
      simp only [List.mem_cons]
      constructor
      · rintro (h | h)
        · exact Or.inl h
        · exact Or.inr (Or.inr h)
      · rintro (h | rfl | h)
        · exact Or.inl h
        · exact Or.inl hx
        · exact Or.inr h
    · rw [if_neg hx, ih]
      simp only [List.mem_append, List.mem_singleton, List.mem_cons]
      tauto

theorem jsSetAux_nodup (l : List String) (acc : List String) (h : acc.Nodup) :
    (jsSetAux acc l).Nodup := by
  induction l generalizing acc with
  | nil => exact h
  | cons x xs ih =>
    simp only [jsSetAux]
    by_cases hx : x ∈ acc
    · rw [if_pos hx]; exact ih _ h
    · rw [if_neg hx]
      refine ih _ ?_
      simp [List.nodup_append, h, hx]

theorem jsSetDedup_mem (l : List String) (a : String) :
    a ∈ jsSetDedup l ↔ a ∈ l := by
  simpa [jsSetDedup] using jsSetAux_mem l [] a

theorem jsSetDedup_nodup (l : List String) : (jsSetDedup l).Nodup :=
  jsSetAux_nodup l [] List.nodup_nil

theorem withIndices_keys (ps : List String) (n : Nat) :
    (withIndices ps n).map (fun pr => pr.1) = ps := by
  induction ps generalizing n with
  | nil => rfl
  | cons p ps ih => simp [withIndices, ih]

theorem withIndices_length (ps : List String) (n : Nat) :
    (withIndices ps n).length = ps.length := by
  induction ps generalizing n with
  | nil => rfl
  | cons p ps ih => simp [withIndices, ih]

theorem withIndices_get? (ps : List String) (n : Nat) (i : Nat) :
    (withIndices ps n).get? i = (ps.get? i).map (fun p => (p, n + i)) := by
  induction ps generalizing n i with
  | nil => simp [withIndices]
  | cons p ps ih =>
    cases i with
    | zero => simp [withIndices]
    | succ i =>
      simp only [withIndices, List.get?_cons_succ, ih]
      cases ps.get? i <;> simp [Nat.add_assoc, Nat.add_comm 1 i]

theorem withIndices_vals (ps : List String) (n : Nat) :
    (withIndices ps n).map (fun pr => pr.2) = List.range' n ps.length := by
  induction ps generalizing n with
  | nil => rfl
  | cons p ps ih => simp [withIndices, ih, List.range'_succ]

theorem mappingLookup_isSome (ps : List String) (n : Nat) (p : String)
    (h : p ∈ ps) : (mappingLookup (withIndices ps n) p).isSome := by
  induction ps generalizing n with
  | nil => cases h
  | cons x xs ih =>
    simp only [withIndices, mappingLookup, List.find?]
    by_cases hx : x = p
    · simp [hx]
    · rw [List.mem_cons] at h
      rcases h with h | h
      · exact absurd h.symm hx
      · simpa [hx, mappingLookup] using ih (n + 1) h

theorem mappingLookup_withIndices (ps : List String) (hnd : ps.Nodup)
    (n : Nat) (p : String) (j : Nat) :
    mappingLookup (withIndices ps n) p = some j ↔
      ∃ i, ps.get? i = some p ∧ j = n + i := by
  induction ps generalizing n with
  | nil => simp [withIndices, mappingLookup]
  | cons x xs ih =>
    rcases List.nodup_cons.mp hnd with ⟨hx, hxs⟩
    simp only [withIndices, mappingLookup]
    by_cases hxp : x = p
    · rw [List.find?_cons_of_pos _ (by simpa using hxp)]
      simp only [Option.map_some', Option.some.injEq]
      constructor
      · rintro rfl
        exact ⟨0, by simpa using hxp, by simp⟩
      · rintro ⟨i, hi, rfl⟩
        cases i with
        | zero => simp
        | succ i =>
          rw [List.get?_cons_succ] at hi
          subst hxp
          exact absurd (List.get?_mem hi) hx
    · rw [List.find?_cons_of_neg _ (by simpa using hxp)]
      have hrec := ih hxs (n + 1)
      simp only [mappingLookup] at hrec
      rw [hrec]
      constructor
      · rintro ⟨i, hi, rfl⟩
        exact ⟨i + 1, by simpa using hi, by omega⟩
      · rintro ⟨i, hi, rfl⟩
        cases i with
        | zero =>
          simp only [List.get?_cons_zero, Option.some.injEq] at hi
          exact absurd hi hxp
        | succ i =>
          exact ⟨i, by simpa using hi, by omega⟩

theorem mappingLookup_of_get? (m : List (String × Nat))
    (hnd : (objKeys m).Nodup) (j : Nat) (pr : String × Nat)
    (h : m.get? j = some pr) : mappingLookup m pr.1 = some pr.2 := by
  induction m generalizing j with
  | nil => simp at h
  | cons hd tl ih =>
    rcases List.nodup_cons.mp
      (show (hd.1 :: objKeys tl).Nodup from hnd) with ⟨hhd, htl⟩
    cases j with
    | zero =>
      simp only [List.get?_cons_zero, Option.some.injEq] at h
      subst h
      simp only [mappingLookup]
      rw [List.find?_cons_of_pos _ (by simp)]
      rfl
    | succ j =>
      simp only [List.get?_cons_succ] at h
      have hmem : pr.1 ∈ objKeys tl := by
        simpa [objKeys] using List.mem_map_of_mem (fun x => x.1) (List.get?_mem h)
      have hne : hd.1 ≠ pr.1 := fun e => hhd (e ▸ hmem)
      have hrec := ih htl j h
      simp only [mappingLookup] at hrec ⊢
      rw [List.find?_cons_of_neg _ (by simpa using hne)]
      exact hrec

theorem jsIdxNeNull_true (l : List (Nat × Nat)) (i : Nat) :
    jsIdxNeNull l i = true := by
  unfold jsIdxNeNull
  cases l.get? i <;> rfl

theorem filterWithIdx_of_true {α : Type} (p : Nat → α → Bool)
    (hp : ∀ i x, p i x = true) (n : Nat) (l : List α) :
    filterWithIdx p n l = l := by
  induction l generalizing n with
  | nil => rfl
  | cons x xs ih => simp [filterWithIdx, hp, ih]

theorem length_filterMap_eq {α β : Type} (l : List α) (f : α → Option β) :
    (l.filterMap f).length = (l.filter (fun x => (f x).isSome)).length := by
  induction l with
  | nil => rfl
  | cons x xs ih =>
    cases h : f x <;>
      simp [List.filterMap_cons, List.filter_cons, h, ih]

theorem preprocess_outputs_eq (pm : String → Option Nat)
    (pf : String → Option ℚ) (rows : List SalesRecord) :
    (preprocessData pm pf (some rows)).outputs =
      rows.map (fun r => jsNumOr0 (pf r.quantity_sold)) := by
  by_cases h : rows.length = 0
  · rw [List.length_eq_zero.mp h]
    rfl
  · simp only [preprocessData, h, if_false]
    exact filterWithIdx_of_true _ (fun i x => jsIdxNeNull_true _ _) 0 _

theorem preprocess_mapping_eq (pm : String → Option Nat)
    (pf : String → Option ℚ) (rows : List SalesRecord) :
    (preprocessData pm pf (some rows)).productMapping =
      withIndices (jsSetDedup (rows.map (fun r => r.product_description))) 0 := by
  by_cases h : rows.length = 0
  · rw [List.length_eq_zero.mp h]
    rfl
  · simp only [preprocessData, h, if_false]

theorem preprocess_inputs_eq (pm : String → Option Nat)
    (pf : String → Option ℚ) (rows : List SalesRecord) :
    (preprocessData pm pf (some rows)).inputs =
      rows.filterMap (fun row =>
        match pm row.sales_date,
          mappingLookup
            (withIndices (jsSetDedup (rows.map (fun r => r.product_description))) 0)
            row.product_description with
        | some m, some idx => some (m, idx)
        | _, _ => none) := by
  by_cases h : rows.length = 0
  · rw [List.length_eq_zero.mp h]
    rfl
  · simp only [preprocessData, h, if_false]
    rw [show (id : Option (Nat × Nat) → Option (Nat × Nat)) = (fun x => x) from rfl]
    rw [List.filterMap_map]
    rfl

theorem preprocess_inputs_length (pm : String → Option Nat)
    (pf : String → Option ℚ) (rows : List SalesRecord) :
    (preprocessData pm pf (some rows)).inputs.length =
      (rows.filter (fun r => (pm r.sales_date).isSome)).length := by
  rw [preprocess_inputs_eq, length_filterMap_eq]
  congr 1
  refine List.filter_congr (fun r hr => ?_)
  have hlk : (mappingLookup
      (withIndices (jsSetDedup (rows.map (fun r => r.product_description))) 0)
      r.product_description).isSome := by
    refine mappingLookup_isSome _ 0 _ ?_
    rw [jsSetDedup_mem]
    exact List.mem_map_of_mem _ hr
  cases hpm : pm r.sales_date with
  | none => simp
  | some m =>
    rcases Option.isSome_iff_exists.mp hlk with ⟨idx, hidx⟩
    simp [hidx]

/-- C1: evaluation of `preprocessData` at a two-row record list whose
second row has an unparsable `sales_date`.  The invalid-date row is
excluded from `inputs` (length 1), but `outputs` keeps both quantities
(length 2): the output filter tests the already-filtered `inputs` array,
whose in-range elements are never `null` and whose out-of-range accesses
give `undefined !== null`, so it never drops anything and the two array
lengths desynchronize as soon as a row is dropped — contrary to the
claim (and to the code's own comment "Outputs corresponding to valid
inputs"). -/
theorem C1_outputs_desynchronize_eval :
    (preprocessData samplePm samplePf (some bugRows)).inputs.length = 1 ∧
    (preprocessData samplePm samplePf (some bugRows)).outputs.length = 2 ∧
    ¬ ((preprocessData samplePm samplePf (some bugRows)).outputs.length =
        (preprocessData samplePm samplePf (some bugRows)).inputs.length) := by
  decide

/-- C5: empty (`[]`) or undefined (`none`) input data makes
`preprocessData` return empty inputs, outputs and product mapping while
logging "Data is empty or undefined" (and, being a total function, it
does not throw); and whenever inputs or outputs are empty after
preprocessing, `trainAndPredict` aborts: it returns no predictions
(hence no chart update) and logs "Invalid input or output data" instead
of propagating an error. -/
theorem C5_empty_input_returns_placeholders_and_training_aborts
    (pm : String → Option Nat) (pf : String → Option ℚ)
    (predict : Nat → Nat → ℚ) :
    preprocessData pm pf none = ⟨[], [], [], ["Data is empty or undefined"]⟩ ∧
    preprocessData pm pf (some []) =
      ⟨[], [], [], ["Data is empty or undefined"]⟩ ∧
    (∀ data, ((preprocessData pm pf data).inputs.length = 0 ∨
        (preprocessData pm pf data).outputs.length = 0) →
      trainAndPredict predict pm pf data =
        (none, (preprocessData pm pf data).errors ++
          ["Invalid input or output data"])) := by
  refine ⟨rfl, rfl, fun data h => ?_⟩
  simp only [trainAndPredict]
  rw [if_pos h]

/-- C5 witness: at `data = none` the hypothesis holds and training aborts
with both diagnostics. -/
theorem C5_witness :
    trainAndPredict samplePredict samplePm samplePf none =
      (none, ["Data is empty or undefined", "Invalid input or output data"]) :=
  (C5_empty_input_returns_placeholders_and_training_aborts samplePm
    samplePf samplePredict).2.2 none (Or.inl rfl)

/-- C7: a row whose `quantity_sold` does not parse is kept — every row
contributes exactly one entry to `outputs` and an unparsable quantity is
coerced to `0` at its position — whereas a row whose `sales_date` does
not parse is dropped from the training `inputs` (only rows with a
parseable date are counted). -/
theorem C7_quantity_coerced_date_dropped (pm : String → Option Nat)
    (pf : String → Option ℚ) (rows : List SalesRecord) :
    (preprocessData pm pf (some rows)).outputs.length = rows.length ∧
    (∀ i r, rows.get? i = some r → pf r.quantity_sold = none →
      (preprocessData pm pf (some rows)).outputs.get? i = some 0) ∧
    (preprocessData pm pf (some rows)).inputs.length =
      (rows.filter (fun r => (pm r.sales_date).isSome)).length := by
  refine ⟨?_, ?_, preprocess_inputs_length pm pf rows⟩
  · rw [preprocess_outputs_eq]
    exact List.length_map _ _
  · intro i r hir hq
    rw [preprocess_outputs_eq, List.get?_map, hir]
    simp [jsNumOr0, hq]

/-- C7 witness: the single row with quantity "oops" is kept and its
output entry is `0`. -/
theorem C7_witness :
    (preprocessData samplePm samplePf (some badQtyRows)).outputs.get? 0 =
      some 0 :=
  (C7_quantity_coerced_date_dropped samplePm samplePf badQtyRows).2.1 0
    ⟨"2024-01-15", "A", "oops"⟩ rfl rfl

/-- C10: preprocessing is deterministic.  The embedding of
`preprocessData` is a pure function of the record list and the two host
parsers — the JS function reads nothing but its `data` prop and uses no
randomness (randomness enters the pipeline only through model weight
initialization and display colors) — so equal record lists yield equal
inputs, outputs and product mappings. -/
theorem C10_preprocess_deterministic (pm : String → Option Nat)
    (pf : String → Option ℚ) (d1 d2 : Option (List SalesRecord))
    (h : d1 = d2) :
    preprocessData pm pf d1 = preprocessData pm pf d2 := by
  rw [h]

/-- C10 witness: two runs on the same concrete record list agree. -/
theorem C10_witness :
    preprocessData samplePm samplePf (some sampleRows) =
      preprocessData samplePm samplePf (some sampleRows) :=
  C10_preprocess_deterministic samplePm samplePf (some sampleRows)
    (some sampleRows) rfl

/-- C3: the Product Index Mapping built by preprocessing is a bijection
from the distinct `product_description` values onto `0..N-1`: its keys
are exactly the distinct products in first-occurrence order, its values
are `0, 1, ..., N-1` in order (no gaps), the keys are pairwise distinct,
and looking a name up yields `some i` exactly when that name sits at
position `i` of the distinct-products list (so the same name always maps
to the same index, distinct names map to distinct indices, and every
index below `N` is hit). -/
theorem C3_product_mapping_bijection (pm : String → Option Nat)
    (pf : String → Option ℚ) (rows : List SalesRecord) :
    (preprocessData pm pf (some rows)).productMapping.map (fun pr => pr.1) =
      jsSetDedup (rows.map (fun r => r.product_description)) ∧
    (preprocessData pm pf (some rows)).productMapping.map (fun pr => pr.2) =
      List.range (preprocessData pm pf (some rows)).productMapping.length ∧
    (jsSetDedup (rows.map (fun r => r.product_description))).Nodup ∧
    (∀ p i,
      mappingLookup (preprocessData pm pf (some rows)).productMapping p = some i ↔
      (jsSetDedup (rows.map (fun r => r.product_description))).get? i = some p) := by
  rw [preprocess_mapping_eq]
  refine ⟨withIndices_keys _ _, ?_, jsSetDedup_nodup _, ?_⟩
  · rw [withIndices_vals, withIndices_length, List.range_eq_range']
  · intro p i
    rw [mappingLookup_withIndices _ (jsSetDedup_nodup _) 0 p i]
    constructor
    · rintro ⟨k, hk, rfl⟩
      rwa [Nat.zero_add]
    · intro h
      exact ⟨i, h, (Nat.zero_add i).symm⟩

/-- C3 witness: at the two-product sample rows, the lookup
characterization holds and "Product B" indeed maps to index 1. -/
theorem C3_witness :
    (mappingLookup (preprocessData samplePm samplePf
        (some sampleRows)).productMapping "Product B" = some 1 ↔
      (jsSetDedup (sampleRows.map (fun r => r.product_description))).get? 1 =
        some "Product B") ∧
    mappingLookup (preprocessData samplePm samplePf
      (some sampleRows)).productMapping "Product B" = some 1 :=
  ⟨(C3_product_mapping_bijection samplePm samplePf sampleRows).2.2.2
    "Product B" 1, by decide⟩

/-- C6: with a non-empty search term, `filterPredictions` retains exactly
the entries whose product name contains the term as a case-insensitive
substring. -/
theorem C6_search_filter_substring (term : String)
    (preds : List PredictionEntry) (h : ¬ term = "") (p : PredictionEntry) :
    p ∈ filterPredictions term preds ↔
      p ∈ preds ∧ jsIncludes (jsToLower p.product) (jsToLower term) = true := by
  unfold filterPredictions
  rw [if_neg h]
  simp [List.mem_filter]

/-- C6 witness: for products ["Widget A", "Gadget B"] and search term
"widget", the characterization holds and only the "Widget A" entry is
retained. -/
theorem C6_witness :
    (¬ ("widget" : String) = "") ∧
    (widgetEntry ∈ filterPredictions "widget" [widgetEntry, gadgetEntry] ↔
      widgetEntry ∈ [widgetEntry, gadgetEntry] ∧
      jsIncludes (jsToLower widgetEntry.product) (jsToLower "widget") = true) ∧
    filterPredictions "widget" [widgetEntry, gadgetEntry] = [widgetEntry] :=
  ⟨by decide,
   C6_search_filter_substring "widget" [widgetEntry, gadgetEntry]
     (by decide) widgetEntry,
   by decide⟩

/-- C9: filtering with the empty search term returns the prediction list
unchanged, and for any term the result is an order-preserving
subsequence of the input. -/
theorem C9_empty_search_identity_sublist (preds : List PredictionEntry) :
    filterPredictions "" preds = preds ∧
    ∀ term, List.Sublist (filterPredictions term preds) preds := by
  constructor
  · unfold filterPredictions
    rw [if_pos rfl]
  · intro term
    unfold filterPredictions
    split
    · exact List.Sublist.refl _
    · exact List.filter_sublist _

/-- C8: the ingestor keeps exactly the rows whose `sales_date`,
`product_description` and `quantity_sold` are all truthy; in particular
a row whose quantity parsed to the number 0 is filtered out. -/
theorem C8_ingestor_truthy_filter (rows : List CsvRow) :
    (∀ r, r ∈ processFile rows ↔ r ∈ rows ∧
      (truthy r.sales_date = true ∧ truthy r.product_description = true ∧
        truthy r.quantity_sold = true)) ∧
    (∀ r, r.quantity_sold = JsValue.vNum 0 → r ∉ processFile rows) := by
  constructor
  · intro r
    simp [processFile, List.mem_filter, and_assoc]
  · intro r hq hr
    unfold processFile at hr
    rw [List.mem_filter] at hr
    rcases hr with ⟨-, hb⟩
    rw [hq] at hb
    simp [truthy] at hb

/-- C8 witness: the zero-quantity row is dropped. -/
theorem C8_witness : zeroQtyRow ∉ processFile [zeroQtyRow] :=
  (C8_ingestor_truthy_filter [zeroQtyRow]).2 zeroQtyRow rfl

theorem generatePredictions_unfold (predict : Nat → Nat → ℚ)
    (m : List (String × Nat)) :
    generatePredictions predict m =
      (objKeys m).map (fun p => ⟨p, 1, predict 1 ((mappingLookup m p).getD 0)⟩) ++
      ((objKeys m).map (fun p => ⟨p, 2, predict 2 ((mappingLookup m p).getD 0)⟩) ++
      ((objKeys m).map (fun p => ⟨p, 3, predict 3 ((mappingLookup m p).getD 0)⟩) ++
      ((objKeys m).map (fun p => ⟨p, 4, predict 4 ((mappingLookup m p).getD 0)⟩) ++
      ((objKeys m).map (fun p => ⟨p, 5, predict 5 ((mappingLookup m p).getD 0)⟩) ++
      ((objKeys m).map (fun p => ⟨p, 6, predict 6 ((mappingLookup m p).getD 0)⟩) ++
        []))))) := rfl

theorem gen_block_get (predict : Nat → Nat → ℚ) (m : List (String × Nat))
    (hnd : (objKeys m).Nodup) (j : Nat) (pr : String × Nat)
    (h : m.get? j = some pr) (k : Nat) :
    ((objKeys m).map (fun p =>
        (⟨p, k, predict k ((mappingLookup m p).getD 0)⟩ : PredictionEntry))).get? j =
      some ⟨pr.1, k, predict k pr.2⟩ := by
  have h1 : (objKeys m).get? j = some pr.1 := by
    rw [objKeys, List.get?_map, h]
    rfl
  rw [List.get?_map, h1]
  simp [mappingLookup_of_get? m hnd j pr h]

theorem get?_some_lt {α : Type} (l : List α) (n : Nat) (a : α)
    (h : l.get? n = some a) : n < l.length := by
  by_contra hge
  rw [List.get?_eq_none.mpr (by omega)] at h
  cases h

/-- C2: with a product mapping with pairwise-distinct keys (as every
mapping built by preprocessing is — see C3) and any trained model, the
prediction loop produces exactly `6 × N` entries whose `sales_date`
(month) field lies in `1..6`, in month-major order: the entry at
position `k * N + j` (for `k < 6` and the `j`-th mapping entry) is the
prediction for month `k + 1` of the `j`-th product of the mapping, in
the mapping's insertion order. -/
theorem C2_prediction_driver_shape (predict : Nat → Nat → ℚ)
    (m : List (String × Nat)) (hnd : (objKeys m).Nodup) :
    (generatePredictions predict m).length = 6 * m.length ∧
    (∀ e ∈ generatePredictions predict m,
      1 ≤ e.sales_date ∧ e.sales_date ≤ 6) ∧
    (∀ k j pr, k < 6 → m.get? j = some pr →
      (generatePredictions predict m).get? (k * m.length + j) =
        some ⟨pr.1, k + 1, predict (k + 1) pr.2⟩) := by
  have hbl : ∀ f : String → PredictionEntry,
      ((objKeys m).map f).length = m.length := by
    intro f
    rw [List.length_map, objKeys, List.length_map]
  refine ⟨?_, ?_, ?_⟩
  · rw [generatePredictions_unfold]
    simp only [List.length_append, hbl, List.length_nil]
    omega
  · intro e he
    rw [generatePredictions_unfold] at he
    simp only [List.mem_append, List.mem_map, List.not_mem_nil, or_false] at he
    rcases he with ⟨p, _, rfl⟩ | ⟨p, _, rfl⟩ | ⟨p, _, rfl⟩ | ⟨p, _, rfl⟩ |
      ⟨p, _, rfl⟩ | ⟨p, _, rfl⟩ <;> exact ⟨by norm_num, by norm_num⟩
  · intro k j pr hk hj
    have hjN : j < m.length := get?_some_lt m j pr hj
    interval_cases k
    · rw [generatePredictions_unfold, Nat.zero_mul, Nat.zero_add,
        List.get?_append (by rw [hbl]; exact hjN)]
      exact gen_block_get predict m hnd j pr hj 1
    · rw [generatePredictions_unfold,
        List.get?_append_right (by rw [hbl]; omega), hbl,
        show 1 * m.length + j - m.length = j from by omega,
        List.get?_append (by rw [hbl]; exact hjN)]
      exact gen_block_get predict m hnd j pr hj 2
    · rw [generatePredictions_unfold,
        List.get?_append_right (by rw [hbl]; omega), hbl,
        show 2 * m.length + j - m.length = m.length + j from by omega,
        List.get?_append_right (by rw [hbl]; omega), hbl,
        show m.length + j - m.length = j from by omega,
        List.get?_append (by rw [hbl]; exact hjN)]
      exact gen_block_get predict m hnd j pr hj 3
    · rw [generatePredictions_unfold,
        List.get?_append_right (by rw [hbl]; omega), hbl,
        show 3 * m.length + j - m.length = 2 * m.length + j from by omega,
        List.get?_append_right (by rw [hbl]; omega), hbl,
        show 2 * m.length + j - m.length = m.length + j from by omega,
        List.get?_append_right (by rw [hbl]; omega), hbl,
        show m.length + j - m.length = j from by omega,
        List.get?_append (by rw [hbl]; exact hjN)]
      exact gen_block_get predict m hnd j pr hj 4
    · rw [generatePredictions_unfold,
        List.get?_append_right (by rw [hbl]; omega), hbl,
        show 4 * m.length + j - m.length = 3 * m.length + j from by omega,
        List.get?_append_right (by rw [hbl]; omega), hbl,
        show 3 * m.length + j - m.length = 2 * m.length + j from by omega,
        List.get?_append_right (by rw [hbl]; omega), hbl,
        show 2 * m.length + j - m.length = m.length + j from by omega,
        List.get?_append_right (by rw [hbl]; omega), hbl,
        show m.length + j - m.length = j from by omega,
        List.get?_append (by rw [hbl]; exact hjN)]
      exact gen_block_get predict m hnd j pr hj 5
    · rw [generatePredictions_unfold,
        List.get?_append_right (by rw [hbl]; omega), hbl,
        show 5 * m.length + j - m.length = 4 * m.length + j from by omega,
        List.get?_append_right (by rw [hbl]; omega), hbl,
        show 4 * m.length + j - m.length = 3 * m.length + j from by omega,
        List.get?_append_right (by rw [hbl]; omega), hbl,
        show 3 * m.length + j - m.length = 2 * m.length + j from by omega,
        List.get?_append_right (by rw [hbl]; omega), hbl,
        show 2 * m.length + j - m.length = m.length + j from by omega,
        List.get?_append_right (by rw [hbl]; omega), hbl,
        show m.length + j - m.length = j from by omega,
        List.get?_append (by rw [hbl]; exact hjN)]
      exact gen_block_get predict m hnd j pr hj 6

theorem filter_product_map (ks : List String) (f : String → PredictionEntry)
    (hf : ∀ s, (f s).product = s) (p : String) :
    ((ks.map f).filter (fun e => e.product = p)).length =
      (ks.filter (fun s => s = p)).length := by
  induction ks with
  | nil => rfl
  | cons x xs ih =>
    simp only [List.map_cons, List.filter_cons, hf]
    by_cases hxp : x = p
    · simp [hxp, ih]
    · simp [hxp, ih]

theorem length_filter_eq_one (ks : List String) (hnd : ks.Nodup) (p : String)
    (hp : p ∈ ks) : (ks.filter (fun s => s = p)).length = 1 := by
  induction ks with
  | nil => cases hp
  | cons x xs ih =>
    rcases List.nodup_cons.mp hnd with ⟨hx, hxs⟩
    by_cases hxp : x = p
    · subst hxp
      have h0 : xs.filter (fun s => s = x) = [] := by
        refine List.filter_eq_nil.mpr (fun a ha => ?_)
        simp only [decide_eq_true_eq]
        rintro rfl
        exact hx ha
      simp [List.filter_cons, h0]
    · have hp' : p ∈ xs := by
        rcases List.mem_cons.mp hp with h | h
        · exact absurd h.symm hxp
        · exact h
      simp [List.filter_cons, hxp, ih hxs hp']

theorem gen_filter_len (predict : Nat → Nat → ℚ) (m : List (String × Nat))
    (hnd : (objKeys m).Nodup) (p : String) (hp : p ∈ objKeys m) :
    ((generatePredictions predict m).filter
      (fun e => e.product = p)).length = 6 := by
  have hblk : ∀ k : Nat,
      (((objKeys m).map (fun q =>
        (⟨q, k, predict k ((mappingLookup m q).getD 0)⟩ : PredictionEntry))).filter
          (fun e => e.product = p)).length = 1 := by
    intro k
    rw [filter_product_map _ _ (fun s => rfl) p,
      length_filter_eq_one _ hnd p hp]
  rw [generatePredictions_unfold]
  simp only [List.filter_append, List.length_append, List.filter_nil,
    List.length_nil]
  rw [hblk 1, hblk 2, hblk 3, hblk 4, hblk 5, hblk 6]

theorem gen_product_mem (predict : Nat → Nat → ℚ) (m : List (String × Nat))
    (e : PredictionEntry) (he : e ∈ generatePredictions predict m) :
    e.product ∈ objKeys m := by
  rw [generatePredictions_unfold] at he
  simp only [List.mem_append, List.mem_map, List.not_mem_nil, or_false] at he
  rcases he with ⟨p, hp, rfl⟩ | ⟨p, hp, rfl⟩ | ⟨p, hp, rfl⟩ | ⟨p, hp, rfl⟩ |
    ⟨p, hp, rfl⟩ | ⟨p, hp, rfl⟩ <;> exact hp

theorem filterPredictions_filter_len (predict : Nat → Nat → ℚ)
    (m : List (String × Nat)) (hnd : (objKeys m).Nodup) (term : String)
    (p : String)
    (hp : p ∈ jsSetDedup ((filterPredictions term
      (generatePredictions predict m)).map (fun e => e.product))) :
    ((filterPredictions term (generatePredictions predict m)).filter
      (fun e => e.product = p)).length = 6 := by
  by_cases hterm : term = ""
  · have hid : filterPredictions term (generatePredictions predict m) =
        generatePredictions predict m := by
      unfold filterPredictions
      rw [if_pos hterm]
    rw [hid] at hp ⊢
    rcases List.mem_map.mp ((jsSetDedup_mem _ _).mp hp) with ⟨e, he, rfl⟩
    exact gen_filter_len predict m hnd e.product
      (gen_product_mem predict m e he)
  · have hfp : filterPredictions term (generatePredictions predict m) =
        (generatePredictions predict m).filter
          (fun e => jsIncludes (jsToLower e.product) (jsToLower term)) := by
      unfold filterPredictions
      rw [if_neg hterm]
    rw [hfp] at hp ⊢
    rcases List.mem_map.mp ((jsSetDedup_mem _ _).mp hp) with ⟨e, he, rfl⟩
    have hef := List.mem_filter.mp he
    have hq : e.product ∈ objKeys m :=
      gen_product_mem predict m e hef.1
    have hsp : jsIncludes (jsToLower e.product) (jsToLower term) = true :=
      hef.2
    rw [List.filter_filter]
    have hcg : ∀ a ∈ generatePredictions predict m,
        (decide (a.product = e.product) &&
          jsIncludes (jsToLower a.product) (jsToLower term)) =
          decide (a.product = e.product) := by
      intro a _
      by_cases hae : a.product = e.product
      · simp [hae, hsp]
      · simp [hae]
    rw [List.filter_congr hcg]
    exact gen_filter_len predict m hnd e.product hq

/-- C4 counterexample: in the single-select variant with "Product A"
selected and driver output over two products, the chart holds a 6-point
series, a 0-point series (the unselected "Product B", whose data is
drawn from the selection-filtered list) and a 12-point series (the raw
12-slot actual-sales array) — refuting "every series array has exactly
6 points" for "every variant". -/
theorem C4_counterexample_select_series :
    ((visualizeResults_select "Product A" samplePredictions
        sampleActualSales).datasets.map (fun d => d.data.length)) =
      [6, 0, 12] ∧
    ¬ (∀ d ∈ (visualizeResults_select "Product A" samplePredictions
        sampleActualSales).datasets, d.data.length = 6) := by
  decide

/-- C4 (amended): in every variant the label array is exactly the six
entries "Month 1".."Month 6"; fed Prediction Driver output, every series
has exactly 6 points in the base variant, in the search-filter variant
(predicted and actual series alike, for any search term), and in the
single-select variant when no product is selected.  (With a product
selected, the single-select variant emits 0-point series for unselected
products and a 12-point actual series — see the counterexample.) -/
theorem C4_labels_always_and_series_six (predict : Nat → Nat → ℚ)
    (m : List (String × Nat)) (hnd : (objKeys m).Nodup) (term : String)
    (dataRows : List SalesRecord) (pm : String → Option Nat) (sel : String)
    (preds : List PredictionEntry)
    (hp : preds = generatePredictions predict m)
    (actual : List (String × List ℚ)) :
    (visualizeResults_base preds).labels =
      ["Month 1", "Month 2", "Month 3", "Month 4", "Month 5", "Month 6"] ∧
    (visualizeResults_search term dataRows pm preds).labels =
      ["Month 1", "Month 2", "Month 3", "Month 4", "Month 5", "Month 6"] ∧
    (visualizeResults_select sel preds actual).labels =
      ["Month 1", "Month 2", "Month 3", "Month 4", "Month 5", "Month 6"] ∧
    (∀ d ∈ (visualizeResults_base preds).datasets, d.data.length = 6) ∧
    (∀ d ∈ (visualizeResults_search term dataRows pm preds).datasets,
      d.data.length = 6) ∧
    (∀ d ∈ (visualizeResults_select "" preds actual).datasets,
      d.data.length = 6) := by
  subst hp
  refine ⟨rfl, rfl, rfl, ?_, ?_, ?_⟩
  · intro d hd
    simp only [visualizeResults_base] at hd
    rcases List.mem_map.mp hd with ⟨p, hpmem, rfl⟩
    rcases List.mem_map.mp ((jsSetDedup_mem _ _).mp hpmem) with ⟨e, he, rfl⟩
    simpa using gen_filter_len predict m hnd e.product
      (gen_product_mem predict m e he)
  · intro d hd
    simp only [visualizeResults_search] at hd
    rw [List.mem_append] at hd
    rcases hd with hd | hd
    · rcases List.mem_map.mp hd with ⟨p, hpmem, rfl⟩
      simpa using filterPredictions_filter_len predict m hnd term p hpmem
    · rcases List.mem_map.mp hd with ⟨pa, hpa, rfl⟩
      obtain ⟨a, b⟩ := pa
      have hb := (List.of_mem_zip hpa).2
      rcases List.mem_map.mp hb with ⟨p, hpmem, rfl⟩
      simp
  · intro d hd
    simp only [visualizeResults_select, if_pos rfl, if_true,
      List.append_nil] at hd
    rcases List.mem_map.mp hd with ⟨p, hpmem, rfl⟩
    rcases List.mem_map.mp ((jsSetDedup_mem _ _).mp hpmem) with ⟨e, he, rfl⟩
    simpa using gen_filter_len predict m hnd e.product
      (gen_product_mem predict m e he)

/-- C4 witness: the amended statement instantiated at the two-product
sample pipeline. -/
theorem C4_witness :
    (visualizeResults_base samplePredictions).labels =
      ["Month 1", "Month 2", "Month 3", "Month 4", "Month 5", "Month 6"] ∧
    (∀ d ∈ (visualizeResults_search "widget" sampleRows samplePm
      samplePredictions).datasets, d.data.length = 6) := by
  have h := C4_labels_always_and_series_six samplePredict sampleMapping
    (by decide) "widget" sampleRows samplePm "Product A" samplePredictions
    rfl sampleActualSales
  exact ⟨h.1, h.2.2.2.2.1⟩

/-- C2 witness: over the two-product sample mapping, the driver emits
`6 × 2` entries and the entry at position `1 * 2 + 1` is month 2 of
"Product B". -/
theorem C2_witness :
    (generatePredictions samplePredict sampleMapping).length =
      6 * sampleMapping.length ∧
    (generatePredictions samplePredict sampleMapping).get?
        (1 * sampleMapping.length + 1) =
      some ⟨"Product B", 1 + 1, samplePredict (1 + 1) 1⟩ := by
  have h := C2_prediction_driver_shape samplePredict sampleMapping (by decide)
  exact ⟨h.1, h.2.2 1 1 ("Product B", 1) (by decide) (by decide)⟩

end SalesForecast
